import Mathlib

/-!
# Verification of the piecewise-jerk speed optimizer core

Shallow embedding of the longitudinal speed optimizer of `easy_apollo`
(`modules/planning/tasks/optimizers/piecewise_jerk_speed/
piecewise_jerk_speed_nonlinear_optimizer.cc`) and of the discretized path
container (`modules/planning/common/path/discretized_path.cc`).

Doubles are modelled as rationals (`ℚ`); the control flow, comparisons and
arithmetic updates follow the C++ source line by line.  External solver
calls (OSQP, Ipopt) and other collaborators outside the sources are modelled
as oracle inputs carried by an environment record: the embedding captures
exactly what the optimizer's own code does with their results.
-/

namespace Apollo

/-! ## Bounds construction (`SetUpStatesAndBounds`, two-tier branch)

The two-tier branch (`FLAGS_use_soft_bound_in_nonlinear_speed_opt`) folds the
ST boundaries at each time knot into a hard pair `(s_lower, s_upper)` and a
soft pair `(s_soft_lower, s_soft_upper)`.  A boundary's data, as observed at
one knot time `curr_t`, is a `STBoundaryAt`:
`unblockRange = some (drive_s_upper, drive_s_lower)` models
`GetUnblockSRange(curr_t, ...)` returning `true`, `none` models the `continue`. -/

inductive BoundaryType where
  | stop
  | yieldType
  | follow
  | overtake
  | unknownType
deriving DecidableEq

structure STBoundaryAt where
  btype : BoundaryType
  unblockRange : Option (ℚ × ℚ)
  characteristicLength : ℚ
  endPoiValid : Bool
  endPoiTime : ℚ
  endPoiSGap : ℚ
deriving DecidableEq

structure BoundsState where
  sLower : ℚ
  sUpper : ℚ
  softLower : ℚ
  softUpper : ℚ
deriving DecidableEq

/-- `k_s_bound_error = 0.1` in `SetUpStatesAndBounds`. -/
def kSBoundError : ℚ := 1/10

/-- `k_overtake_safe_dist = 10.0`. -/
def kOvertakeSafeDist : ℚ := 10

/-- The gap used by the YIELD and FOLLOW cases: `characteristic_length`,
raised to the end-interaction `s_gap` when the end-interaction point is valid
and `|end_poi.time - curr_t| < 0.05` (two strict comparisons in the source). -/
def effectiveSGap (b : STBoundaryAt) (currT : ℚ) : ℚ :=
  if b.endPoiValid = true ∧ b.endPoiTime - currT < 1/20 ∧ b.endPoiTime - currT > -(1/20)
  then max b.characteristicLength b.endPoiSGap
  else b.characteristicLength

/-- One iteration of the boundary loop of the two-tier branch of
`SetUpStatesAndBounds` (source lines 287-429), acting on the four running
bounds.  `dpV` is `dp_speed_point.v()`, `fmd` is `FLAGS_follow_min_distance`,
`ftb` is `FLAGS_follow_time_buffer`. -/
def processBoundary (currT dpV fmd ftb : ℚ) (st : BoundsState) (b : STBoundaryAt) :
    BoundsState :=
  match b.unblockRange with
  | none => st
  | some (driveSUpper, driveSLower) =>
    match b.btype with
    | BoundaryType.stop =>
      let sU := min st.sUpper driveSUpper
      let softU := min st.softUpper driveSUpper
      let sU2 := if sU ≤ st.sLower then st.sLower + kSBoundError else sU
      let softU2 := if softU ≤ st.softLower then st.softLower + kSBoundError else softU
      ⟨st.sLower, sU2, st.softLower, softU2⟩
    | BoundaryType.yieldType =>
      let g := effectiveSGap b currT
      let sU := min st.sUpper (driveSUpper - g)
      let softU := min st.softUpper driveSUpper
      let sU2 := if sU ≤ st.sLower then st.sLower + kSBoundError else sU
      let softU2 := if softU ≤ st.softLower then st.softLower + kSBoundError else softU
      ⟨st.sLower, sU2, st.softLower, softU2⟩
    | BoundaryType.follow =>
      let g := effectiveSGap b currT
      let sU := min st.sUpper (driveSUpper - g)
      let softDist := fmd + min 7 (ftb * dpV)
      let softU := min st.softUpper (driveSUpper - softDist)
      let sU2 := if sU ≤ st.sLower then st.sLower + kSBoundError else sU
      let softU2 := if softU ≤ st.softLower then st.softLower + kSBoundError else softU
      ⟨st.sLower, sU2, st.softLower, softU2⟩
    | BoundaryType.overtake =>
      let sL := max st.sLower driveSLower
      let softL := max st.softLower (driveSLower + kOvertakeSafeDist)
      let sL2 := if st.sUpper ≤ sL then st.sUpper - kSBoundError else sL
      let softL2 := if st.softUpper ≤ softL then st.softUpper - kSBoundError else softL
      ⟨sL2, st.sUpper, softL2, st.softUpper⟩
    | BoundaryType.unknownType => st

/-- The whole per-knot bounds computation of the two-tier branch (source lines
257-461): the DP rough-speed lookup guard, the boundary fold from the initial
state `(0, total_length)`, the emergency-brake raise of the hard upper bound,
and the final feasibility check.  `hasEbk` models
`emergency_brake_curve.EvaluateByTime(curr_t, ...)` succeeding with point
station `ebkS`; `dpOk` models `speed_data.EvaluateByTime(curr_t, ...)`
succeeding with velocity `dpV`. -/
def knotBounds (totalLength : ℚ) (bs : List STBoundaryAt) (hasEbk : Bool) (ebkS : ℚ)
    (dpOk : Bool) (dpV : ℚ) (currT fmd ftb : ℚ) : Except String BoundsState :=
  if bs.isEmpty = false ∧ dpOk = false then
    Except.error "rough speed profile estimation for soft follow fence failed"
  else
    let st0 : BoundsState := ⟨0, totalLength, 0, totalLength⟩
    let st1 := bs.foldl (processBoundary currT dpV fmd ftb) st0
    let st2 := if bs.isEmpty = false ∧ hasEbk = true then
                 { st1 with sUpper := max st1.sUpper (ebkS + 1/5) }
               else st1
    if st2.sLower > st2.sUpper then
      Except.error "s_lower_bound larger than s_upper_bound on STGraph"
    else
      Except.ok st2

/-! ## Velocity box of the speed QP (`OptimizeByQP`) -/

/-- `OptimizeByQP` line 659: `speed_limit = std::max(max_speed_, s_dot_init_ + 0.1)`. -/
def qpSpeedLimit (maxSpeed sDotInit : ℚ) : ℚ := max maxSpeed (sDotInit + 1/10)

/-- `piecewise_jerk_problem.set_dx_bounds(0.0, speed_limit)` (line 661). -/
def qpDxBounds (maxSpeed sDotInit : ℚ) : ℚ × ℚ := (0, qpSpeedLimit maxSpeed sDotInit)

/-! ## The `Process` pipeline

Outcomes of external collaborators and solvers are oracle inputs in a
`ProcessEnv`; `Process` reproduces the control flow of
`PiecewiseJerkSpeedNonlinearOptimizer::Process` together with
`optimize_speed_by_nlp_interface`.  The caller's `SpeedData` buffer is the
second component of the result; `FillEnoughSpeedPoints` (tail padding, code
outside the optimizer) is not part of the emission modelled here. -/

structure SpeedPoint where
  s : ℚ
  t : ℚ
  v : ℚ
  a : ℚ
  j : ℚ
deriving DecidableEq

inductive PStatus where
  | ok
  | error (msg : String)
deriving DecidableEq

/-- `delta_t_ = 0.1` (`SetUpStatesAndBounds`, line 205). -/
def deltaT : ℚ := 1/10

/-- The speed point appended at loop index `i ≥ 1` of the emission loop
(source lines 165-175). -/
def mkSpeedPoint (d v a : ℕ → ℚ) (dt : ℚ) (i : ℕ) : SpeedPoint :=
  ⟨d i, dt * i, v i, a i, (a i - a (i - 1)) / dt⟩

/-- Index at which the emission loop stops: the first `j ≥ i` (within `fuel`
iterations) with `v j < 0`, else `i + fuel`. -/
def stopAux (v : ℕ → ℚ) : ℕ → ℕ → ℕ
  | i, 0 => i
  | i, fuel+1 => if v i < 0 then i else stopAux v (i+1) fuel

/-- The emission loop body: starting at index `i` with `fuel` remaining
iterations, break on `v i < 0`, else append and continue. -/
def emitTail (d v a : ℕ → ℚ) (dt : ℚ) : ℕ → ℕ → List SpeedPoint
  | _, 0 => []
  | i, fuel+1 =>
    if v i < 0 then []
    else mkSpeedPoint d v a dt i :: emitTail d v a dt (i+1) fuel

/-- The `SpeedData` written by `Process` on success (lines 161-176): the
initial point `(distance[0], 0, velocity[0], acceleration[0], 0)` followed by
the loop over `i = 1 .. num_of_knots-1`. -/
def emitSpeedPoints (d v a : ℕ → ℚ) (dt : ℚ) (n : ℕ) : List SpeedPoint :=
  ⟨d 0, 0, v 0, a 0, 0⟩ :: emitTail d v a dt 1 (n - 1)

structure ProcessEnv where
  outputIsNull : Bool
  pathIsEmpty : Bool
  reachedDestination : Bool
  initialSpeedData : List SpeedPoint
  setupOk : Bool
  numKnots : ℕ
  qpOk : Bool
  qpDistance : ℕ → ℚ
  qpVelocity : ℕ → ℚ
  qpAcceleration : ℕ → ℚ
  speedLimitFeasible : Bool
  curvatureSmoothOk : Bool
  speedLimitSmoothOk : Bool
  nlpOk : Bool
  nlpDistance : ℕ → ℚ
  nlpVelocity : ℕ → ℚ
  nlpAcceleration : ℕ → ℚ

/-- `optimize_speed_by_nlp_interface` (lines 1092-1188): the
distance/velocity/acceleration arrays after the NLP refinement stage.  Every
early return (initial speed over limit, curvature smoothing failure, speed
limit smoothing failure, NLP non-convergence) leaves the QP arrays untouched;
only full success replaces them with the NLP solution. -/
def nlpStageArrays (env : ProcessEnv) : (ℕ → ℚ) × (ℕ → ℚ) × (ℕ → ℚ) :=
  if env.speedLimitFeasible = false then
    (env.qpDistance, env.qpVelocity, env.qpAcceleration)
  else if env.curvatureSmoothOk = false then
    (env.qpDistance, env.qpVelocity, env.qpAcceleration)
  else if env.speedLimitSmoothOk = false then
    (env.qpDistance, env.qpVelocity, env.qpAcceleration)
  else if env.nlpOk = false then
    (env.qpDistance, env.qpVelocity, env.qpAcceleration)
  else
    (env.nlpDistance, env.nlpVelocity, env.nlpAcceleration)

/-- `PiecewiseJerkSpeedNonlinearOptimizer::Process` (lines 70-188): returned
status together with the caller's `SpeedData` buffer after the call.  The two
invalid-input early returns and the reached-destination return leave the
buffer as it was; the setup and QP failures clear it; success clears it and
re-fills it from the (possibly NLP-refined) arrays. -/
def Process (env : ProcessEnv) : PStatus × List SpeedPoint :=
  if env.outputIsNull = true then
    (PStatus.error "Null speed_data pointer", env.initialSpeedData)
  else if env.pathIsEmpty = true then
    (PStatus.error "Speed Optimizer receives empty path data", env.initialSpeedData)
  else if env.reachedDestination = true then
    (PStatus.ok, env.initialSpeedData)
  else if env.setupOk = false then
    (PStatus.error "problem setup failed", [])
  else if env.qpOk = false then
    (PStatus.error "Speed Optimization by Quadratic Programming failed", [])
  else
    let arrs := nlpStageArrays env
    (PStatus.ok, emitSpeedPoints arrs.1 arrs.2.1 arrs.2.2 deltaT env.numKnots)

/-! ## DiscretizedPath (`discretized_path.cc`)

`DiscretizedPath` publicly inherits `std::vector<PathPoint>`; we model it as a
`List PathPoint`.  `QueryLowerBound` / `QueryUpperBound` call
`std::lower_bound` / `std::upper_bound`; because `QueryUpperBound`'s
comparator compares in the direction of a *descending* station sequence, the
standard-library binary search is modelled operationally (the classic
half-interval iteration, which is what libstdc++ executes whatever the
ordering of the input) rather than as an abstract partition point. -/

structure PathPoint where
  s : ℚ
  x : ℚ
  kappa : ℚ
deriving DecidableEq

def defaultPathPoint : PathPoint := ⟨0, 0, 0⟩

def pathPointAt (pts : List PathPoint) (i : ℕ) : PathPoint :=
  pts.getD i defaultPathPoint

def sAt (pts : List PathPoint) (i : ℕ) : ℚ := (pathPointAt pts i).s

/-- The binary-search iteration common to `std::lower_bound` and
`std::upper_bound`: on range `[first, first + count)`, halve; if `pred`
holds at the probe, continue right of it, else continue in the left half.
`fuel ≥ count` makes the recursion structural. -/
def bsearchAux (pred : ℕ → Bool) : ℕ → ℕ → ℕ → ℕ
  | 0, first, _ => first
  | fuel+1, first, count =>
    if count = 0 then first
    else
      let step := count / 2
      if pred (first + step) then bsearchAux pred fuel (first + step + 1) (count - step - 1)
      else bsearchAux pred fuel first step

def bsearch (pred : ℕ → Bool) (count : ℕ) : ℕ := bsearchAux pred count 0 count

/-- `DiscretizedPath::QueryLowerBound`: `std::lower_bound` with comparator
`tp.s() < path_s`, i.e. the probe is passed while its station is `< path_s`. -/
def QueryLowerBound (pts : List PathPoint) (q : ℚ) : ℕ :=
  bsearch (fun i => decide (sAt pts i < q)) pts.length

/-- `DiscretizedPath::QueryUpperBound`: `std::upper_bound` whose comparator
`comp(path_s, tp) := tp.s() < path_s` makes the iteration advance past the
probe exactly when `¬(tp.s() < path_s)`. -/
def QueryUpperBound (pts : List PathPoint) (q : ℚ) : ℕ :=
  bsearch (fun i => !decide (sAt pts i < q)) pts.length

def lerpOn (s0 s1 x0 x1 q : ℚ) : ℚ := x0 + (x1 - x0) * ((q - s0) / (s1 - s0))

/-- Modelled from the spec: `InterpolateUsingLinearApproximation`
(`modules/common/math/linear_interpolation`, not under `src/`) linearly
interpolates every field of the two path points at the query station. -/
def InterpolateUsingLinearApproximation (p0 p1 : PathPoint) (q : ℚ) : PathPoint :=
  ⟨q, lerpOn p0.s p1.s p0.x p1.x q, lerpOn p0.s p1.s p0.kappa p1.kappa q⟩

/-- `DiscretizedPath::Evaluate` (lines 61-76). -/
def Evaluate (pts : List PathPoint) (q : ℚ) : PathPoint :=
  let i := QueryLowerBound pts q
  if i = 0 then pts.headD defaultPathPoint
  else if i = pts.length then pts.getLastD defaultPathPoint
  else InterpolateUsingLinearApproximation (pathPointAt pts (i-1)) (pathPointAt pts i) q

/-- `DiscretizedPath::EvaluateReverse` (lines 90-104). -/
def EvaluateReverse (pts : List PathPoint) (q : ℚ) : PathPoint :=
  let i := QueryUpperBound pts q
  if i = 0 then pts.headD defaultPathPoint
  else if i = pts.length then pts.getLastD defaultPathPoint
  else InterpolateUsingLinearApproximation (pathPointAt pts (i-1)) (pathPointAt pts i) q

/-- Reference linear scan: the number of leading points with station `< q`
(for a station-sorted path this is the partition point that
`std::lower_bound` returns). -/
def lbLinear (q : ℚ) : List PathPoint → ℕ
  | [] => 0
  | p :: rest => if p.s < q then lbLinear q rest + 1 else 0

/-! ## Concrete instances used by witnesses and counterexamples -/

def qpArraysZero : ℕ → ℚ := fun _ => 0

/-- Environment: NLP stage skipped by infeasible initial speed; QP succeeded. -/
def envC1 : ProcessEnv where
  outputIsNull := false
  pathIsEmpty := false
  reachedDestination := false
  initialSpeedData := [⟨1, 2, 3, 4, 5⟩]
  setupOk := true
  numKnots := 3
  qpOk := true
  qpDistance := fun i => i
  qpVelocity := fun _ => 2
  qpAcceleration := fun _ => 0
  speedLimitFeasible := false
  curvatureSmoothOk := true
  speedLimitSmoothOk := true
  nlpOk := false
  nlpDistance := qpArraysZero
  nlpVelocity := qpArraysZero
  nlpAcceleration := qpArraysZero

/-- Environment: empty path with stale points in the caller's buffer. -/
def envC5cex : ProcessEnv where
  outputIsNull := false
  pathIsEmpty := true
  reachedDestination := false
  initialSpeedData := [⟨1, 2, 3, 4, 5⟩]
  setupOk := true
  numKnots := 3
  qpOk := true
  qpDistance := qpArraysZero
  qpVelocity := qpArraysZero
  qpAcceleration := qpArraysZero
  speedLimitFeasible := true
  curvatureSmoothOk := true
  speedLimitSmoothOk := true
  nlpOk := true
  nlpDistance := qpArraysZero
  nlpVelocity := qpArraysZero
  nlpAcceleration := qpArraysZero

/-- Environment: bounds setup failed. -/
def envC5 : ProcessEnv where
  outputIsNull := false
  pathIsEmpty := false
  reachedDestination := false
  initialSpeedData := [⟨1, 2, 3, 4, 5⟩]
  setupOk := false
  numKnots := 3
  qpOk := true
  qpDistance := qpArraysZero
  qpVelocity := qpArraysZero
  qpAcceleration := qpArraysZero
  speedLimitFeasible := true
  curvatureSmoothOk := true
  speedLimitSmoothOk := true
  nlpOk := true
  nlpDistance := qpArraysZero
  nlpVelocity := qpArraysZero
  nlpAcceleration := qpArraysZero

/-- A FOLLOW boundary supported at the current knot, end-interaction invalid. -/
def followBoundaryW : STBoundaryAt where
  btype := BoundaryType.follow
  unblockRange := some (50, 0)
  characteristicLength := 5
  endPoiValid := false
  endPoiTime := 0
  endPoiSGap := 0

/-- A STOP boundary supported at the current knot. -/
def stopBoundaryW : STBoundaryAt where
  btype := BoundaryType.stop
  unblockRange := some (30, 0)
  characteristicLength := 0
  endPoiValid := false
  endPoiTime := 0
  endPoiSGap := 0

/-- Velocity array whose initial entry is negative. -/
def velNegAtZero : ℕ → ℚ := fun _ => -1

/-- Two path points with strictly increasing stations. -/
def ptsTwo : List PathPoint := [⟨0, 0, 0⟩, ⟨1, 1, 1⟩]

/-! ## Lemmas: the bounds state machine -/

/-- Any single boundary step preserves `s_lower ≤ s_upper`. -/
lemma processBoundary_hard_le (currT dpV fmd ftb : ℚ) (st : BoundsState) (b : STBoundaryAt)
    (h : st.sLower ≤ st.sUpper) :
    (processBoundary currT dpV fmd ftb st b).sLower ≤
      (processBoundary currT dpV fmd ftb st b).sUpper := by
  have hk : (0 : ℚ) < kSBoundError := by norm_num [kSBoundError]
  rcases hrng : b.unblockRange with _ | ⟨u, l⟩
  · simpa [processBoundary, hrng] using h
  · cases htb : b.btype <;>
      simp only [processBoundary, hrng, htb] <;>
      first
        | exact h
        | (split_ifs <;> linarith [hk])

/-- Folding the boundary loop preserves `s_lower ≤ s_upper`. -/
lemma foldl_hard_le (currT dpV fmd ftb : ℚ) (bs : List STBoundaryAt) (st : BoundsState)
    (h : st.sLower ≤ st.sUpper) :
    (bs.foldl (processBoundary currT dpV fmd ftb) st).sLower ≤
      (bs.foldl (processBoundary currT dpV fmd ftb) st).sUpper := by
  induction bs generalizing st with
  | nil => simpa using h
  | cons b bs ih =>
    simp only [List.foldl_cons]
    exact ih _ (processBoundary_hard_le currT dpV fmd ftb st b h)

/-! ## Theorems: claims C2, C3, C4, C8 -/

/-- C2: at a knot inside a FOLLOW boundary's supported range, the hard upper
bound becomes `min(previous, u - gap)` — `gap` being the characteristic
length, raised to the end-interaction `s_gap` override when
`|t_end - curr_t| < 0.05` — and the soft upper bound becomes
`min(previous, u - (follow_min_distance + min(7, follow_time_buffer · dp_v)))`
(stated away from the interval-collapse repairs, which claim C4 covers). -/
theorem c2_follow_update (currT dpV fmd ftb u l : ℚ) (st : BoundsState) (b : STBoundaryAt)
    (htype : b.btype = BoundaryType.follow) (hrange : b.unblockRange = some (u, l))
    (hHard : st.sLower < min st.sUpper (u - effectiveSGap b currT))
    (hSoft : st.softLower < min st.softUpper (u - (fmd + min 7 (ftb * dpV)))) :
    processBoundary currT dpV fmd ftb st b =
      ⟨st.sLower, min st.sUpper (u - effectiveSGap b currT), st.softLower,
        min st.softUpper (u - (fmd + min 7 (ftb * dpV)))⟩ ∧
    effectiveSGap b currT =
      (if b.endPoiValid = true ∧ |b.endPoiTime - currT| < 1/20
       then max b.characteristicLength b.endPoiSGap
       else b.characteristicLength) := by
  constructor
  · simp only [processBoundary, hrange, htype]
    split_ifs <;> first | rfl | (exfalso; linarith)
  · by_cases hc : b.endPoiValid = true ∧ |b.endPoiTime - currT| < (1/20 : ℚ)
    · obtain ⟨hv, hx⟩ := hc
      rw [abs_lt] at hx
      rw [effectiveSGap, if_pos ⟨hv, hx.2, hx.1⟩, if_pos ⟨hv, abs_lt.mpr hx⟩]
    · rw [effectiveSGap,
        if_neg (fun hcon => hc ⟨hcon.1, abs_lt.mpr ⟨hcon.2.2, hcon.2.1⟩⟩),
        if_neg hc]

/-- C2 witness: a supported FOLLOW boundary at `u = 50` with characteristic
length 5, no end-interaction point, on the initial state `(0,100)`. -/
theorem c2_follow_update_witness :
    processBoundary 0 2 4 1 ⟨0, 100, 0, 100⟩ followBoundaryW =
      ⟨(0 : ℚ), min 100 (50 - effectiveSGap followBoundaryW 0), 0,
        min 100 (50 - (4 + min 7 (1 * 2)))⟩ ∧
    effectiveSGap followBoundaryW 0 =
      (if followBoundaryW.endPoiValid = true ∧ |followBoundaryW.endPoiTime - 0| < 1/20
       then max followBoundaryW.characteristicLength followBoundaryW.endPoiSGap
       else followBoundaryW.characteristicLength) :=
  c2_follow_update 0 2 4 1 50 0 ⟨0, 100, 0, 100⟩ followBoundaryW rfl rfl
    (by norm_num [followBoundaryW, effectiveSGap, min_def])
    (by norm_num [min_def])

/-- C3: at a knot where ST boundaries are present and the emergency-brake
curve evaluates (`has_ebk`), any bounds pair the two-tier build stores has a
hard upper bound at least `ebk_point.s + 0.2`, whatever STOP/YIELD/FOLLOW
boundaries did to it. -/
theorem c3_ebk_envelope (totalLength ebkS dpV currT fmd ftb : ℚ) (bs : List STBoundaryAt)
    (dpOk : Bool) (st : BoundsState) (hbs : bs ≠ [])
    (hok : knotBounds totalLength bs true ebkS dpOk dpV currT fmd ftb = Except.ok st) :
    ebkS + 1/5 ≤ st.sUpper := by
  have hbe : bs.isEmpty = false := by
    cases bs with
    | nil => exact absurd rfl hbs
    | cons b bs => rfl
  simp only [knotBounds] at hok
  split_ifs at hok with h1 h2 h3 h4
  all_goals first
    | exact Except.noConfusion hok
    | (injection hok with h5
       subst h5
       exact le_max_right _ _)
    | exact absurd ⟨hbe, trivial⟩ h2

/-- C3 witness: one STOP boundary at `u = 30`, emergency-brake station 20. -/
theorem c3_ebk_envelope_witness : (20 : ℚ) + 1/5 ≤ (BoundsState.mk 0 30 0 30).sUpper :=
  c3_ebk_envelope 100 20 0 0 0 0 [stopBoundaryW] true ⟨0, 30, 0, 30⟩
    (by simp)
    (by norm_num [knotBounds, stopBoundaryW, processBoundary, kSBoundError, min_def, max_def])

/-- C4: each per-boundary update of the two-tier build leaves both the hard
interval and the soft interval nonempty — the collapse repairs move the
violated bound `0.1 m` away from the other bound, so `upper > lower` holds
for both pairs after every supported STOP/YIELD/FOLLOW/OVERTAKE boundary is
processed, whatever the incoming state was. -/
theorem c4_interval_repair (currT dpV fmd ftb : ℚ) (st : BoundsState) (b : STBoundaryAt)
    (u l : ℚ) (hr : b.unblockRange = some (u, l))
    (ht : b.btype ≠ BoundaryType.unknownType) :
    (processBoundary currT dpV fmd ftb st b).sLower <
      (processBoundary currT dpV fmd ftb st b).sUpper ∧
    (processBoundary currT dpV fmd ftb st b).softLower <
      (processBoundary currT dpV fmd ftb st b).softUpper := by
  have hk : (0 : ℚ) < kSBoundError := by norm_num [kSBoundError]
  cases htb : b.btype <;>
    first
    | exact absurd htb ht
    | (simp only [processBoundary, hr, htb]
       split_ifs <;> exact ⟨by linarith [hk], by linarith [hk]⟩)

/-- C4 witness: a STOP wall at `u = 30` against the state `(0, 100)`. -/
theorem c4_interval_repair_witness :
    (processBoundary 0 0 0 0 ⟨0, 100, 0, 100⟩ stopBoundaryW).sLower <
      (processBoundary 0 0 0 0 ⟨0, 100, 0, 100⟩ stopBoundaryW).sUpper ∧
    (processBoundary 0 0 0 0 ⟨0, 100, 0, 100⟩ stopBoundaryW).softLower <
      (processBoundary 0 0 0 0 ⟨0, 100, 0, 100⟩ stopBoundaryW).softUpper :=
  c4_interval_repair 0 0 0 0 ⟨0, 100, 0, 100⟩ stopBoundaryW 30 0 rfl (by decide)

/-- C8: in the two-tier branch, when `total_length ≥ 0` the per-knot failure
check `s_lower_bound > s_upper_bound` can never fire: the collapse repairs
keep `s_lower ≤ s_upper` through the boundary fold, and the emergency-brake
update only raises the upper bound, so that error branch is unreachable. -/
theorem c8_infeasible_check_unreachable (totalLength : ℚ) (hL : 0 ≤ totalLength)
    (bs : List STBoundaryAt) (hasEbk : Bool) (ebkS : ℚ) (dpOk : Bool)
    (dpV currT fmd ftb : ℚ) :
    knotBounds totalLength bs hasEbk ebkS dpOk dpV currT fmd ftb ≠
      Except.error "s_lower_bound larger than s_upper_bound on STGraph" := by
  have hfold := foldl_hard_le currT dpV fmd ftb bs ⟨0, totalLength, 0, totalLength⟩ hL
  simp only [knotBounds]
  by_cases hA : bs.isEmpty = false ∧ dpOk = false
  · rw [if_pos hA]
    simp only [ne_eq, Except.error.injEq]
    decide
  · rw [if_neg hA]
    by_cases hB : bs.isEmpty = false ∧ hasEbk = true
    · rw [if_pos hB]
      rw [if_neg (not_lt.mpr (le_trans hfold (le_max_left _ _)))]
      simp
    · rw [if_neg hB]
      rw [if_neg (not_lt.mpr hfold)]
      simp

/-- C8 witness: `total_length = 100`, one STOP boundary, emergency brake at 20. -/
theorem c8_infeasible_check_unreachable_witness :
    knotBounds 100 [stopBoundaryW] true 20 true 0 0 0 0 ≠
      Except.error "s_lower_bound larger than s_upper_bound on STGraph" :=
  c8_infeasible_check_unreachable 100 (by norm_num) [stopBoundaryW] true 20 true 0 0 0 0

/-! ## Theorems: claim C6 (speed QP velocity box) -/

/-- C6 counterexample: the claim says the QP velocity box is `[0, ṡ_max]`;
with `max_speed = 10` and initial speed `15` the code sets the box to
`[0, max(10, 15 + 0.1)] = [0, 15.1] ≠ [0, 10]`. -/
theorem c6_qp_velocity_box_cex : qpDxBounds 10 15 ≠ ((0 : ℚ), (10 : ℚ)) := by
  norm_num [qpDxBounds, qpSpeedLimit, max_def, Prod.ext_iff]

/-- C6 (amended): the QP velocity box is `[0, max(ṡ_max, ṡ₀ + 0.1)]`; when
`ṡ₀ + 0.1 ≤ ṡ_max` this is exactly `[0, ṡ_max]`, and any velocity
respecting the box lies in `[0, ṡ_max + ε]`. -/
theorem c6_qp_velocity_box (maxSpeed sDotInit vel : ℚ)
    (h : sDotInit + 1/10 ≤ maxSpeed)
    (hlo : (qpDxBounds maxSpeed sDotInit).1 ≤ vel)
    (hhi : vel ≤ (qpDxBounds maxSpeed sDotInit).2) :
    qpDxBounds maxSpeed sDotInit = (0, maxSpeed) ∧ 0 ≤ vel ∧ vel ≤ maxSpeed + 1/1000 := by
  have hq : qpSpeedLimit maxSpeed sDotInit = maxSpeed := max_eq_left (by linarith)
  have hlo' : (0 : ℚ) ≤ vel := by simpa [qpDxBounds] using hlo
  have hhi' : vel ≤ maxSpeed := by simpa [qpDxBounds, hq] using hhi
  exact ⟨by simp [qpDxBounds, hq], hlo', by linarith⟩

/-- C6 witness: `ṡ_max = 10`, `ṡ₀ = 5`, a velocity of `3` inside the box. -/
theorem c6_qp_velocity_box_witness :
    qpDxBounds 10 5 = ((0 : ℚ), (10 : ℚ)) ∧ (0 : ℚ) ≤ 3 ∧ (3 : ℚ) ≤ 10 + 1/1000 :=
  c6_qp_velocity_box 10 5 3 (by norm_num)
    (by norm_num [qpDxBounds, qpSpeedLimit, max_def])
    (by norm_num [qpDxBounds, qpSpeedLimit, max_def])

/-! ## Lemmas: the emission loop -/

lemma stopAux_ge (v : ℕ → ℚ) : ∀ fuel i, i ≤ stopAux v i fuel := by
  intro fuel
  induction fuel with
  | zero => intro i; exact le_rfl
  | succ fuel ih =>
    intro i
    simp only [stopAux]
    split_ifs
    · exact le_rfl
    · exact le_trans (Nat.le_succ i) (ih (i+1))

lemma stopAux_le (v : ℕ → ℚ) : ∀ fuel i, stopAux v i fuel ≤ i + fuel := by
  intro fuel
  induction fuel with
  | zero => intro i; exact Nat.le_refl i
  | succ fuel ih =>
    intro i
    simp only [stopAux]
    split_ifs
    · exact Nat.le_add_right i (fuel+1)
    · exact le_trans (ih (i+1)) (by omega)

lemma stopAux_before (v : ℕ → ℚ) :
    ∀ fuel i j, i ≤ j → j < stopAux v i fuel → ¬ v j < 0 := by
  intro fuel
  induction fuel with
  | zero => intro i j hij hj; exact absurd (lt_of_le_of_lt hij hj) (lt_irrefl i)
  | succ fuel ih =>
    intro i j hij hj
    simp only [stopAux] at hj
    split_ifs at hj with hvi
    · exact absurd (lt_of_le_of_lt hij hj) (lt_irrefl i)
    · rcases Nat.eq_or_lt_of_le hij with h | h
      · subst h; exact hvi
      · exact ih (i+1) j h hj

lemma stopAux_at (v : ℕ → ℚ) :
    ∀ fuel i, stopAux v i fuel < i + fuel → v (stopAux v i fuel) < 0 := by
  intro fuel
  induction fuel with
  | zero => intro i h; exact absurd h (lt_irrefl i)
  | succ fuel ih =>
    intro i h
    simp only [stopAux] at h ⊢
    split_ifs at h ⊢ with hvi
    · exact hvi
    · exact ih (i+1) (by omega)

lemma emitTail_eq (d v a : ℕ → ℚ) (dt : ℚ) :
    ∀ fuel i, emitTail d v a dt i fuel =
      (List.range' i (stopAux v i fuel - i)).map (mkSpeedPoint d v a dt) := by
  intro fuel
  induction fuel with
  | zero => intro i; simp [emitTail, stopAux]
  | succ fuel ih =>
    intro i
    simp only [emitTail, stopAux]
    split_ifs with hvi
    · simp
    · have h1 : i + 1 ≤ stopAux v (i+1) fuel := stopAux_ge v fuel (i+1)
      have h2 : stopAux v (i+1) fuel - i = (stopAux v (i+1) fuel - (i+1)) + 1 := by omega
      rw [h2, List.range'_succ i _ 1, List.map_cons, ih (i+1)]

/-! ## Theorems: claims C1, C5, C7 -/

/-- C1: if the QP succeeds and any stage of the NLP refinement bails out
(initial speed over the smoothed limit, curvature smoothing failure, speed
limit smoothing failure, or NLP non-convergence), `Process` still returns OK
and the emitted `SpeedData` is built from the QP's
distance/velocity/acceleration arrays. -/
theorem c1_qp_result_retained (env : ProcessEnv)
    (h1 : env.outputIsNull = false) (h2 : env.pathIsEmpty = false)
    (h3 : env.reachedDestination = false) (h4 : env.setupOk = true) (h5 : env.qpOk = true)
    (h6 : env.speedLimitFeasible = false ∨ env.curvatureSmoothOk = false ∨
          env.speedLimitSmoothOk = false ∨ env.nlpOk = false) :
    Process env =
      (PStatus.ok,
        emitSpeedPoints env.qpDistance env.qpVelocity env.qpAcceleration deltaT
          env.numKnots) := by
  have harr : nlpStageArrays env = (env.qpDistance, env.qpVelocity, env.qpAcceleration) := by
    unfold nlpStageArrays
    split_ifs with a b c dd
    · rfl
    · rfl
    · rfl
    · rfl
    · rcases h6 with h | h | h | h
      · exact absurd h a
      · exact absurd h b
      · exact absurd h c
      · exact absurd h dd
  simp [Process, h1, h2, h3, h4, h5, harr]

/-- C1 witness: QP succeeded, NLP stage skipped by the initial-speed check. -/
theorem c1_qp_result_retained_witness :
    Process envC1 =
      (PStatus.ok,
        emitSpeedPoints envC1.qpDistance envC1.qpVelocity envC1.qpAcceleration deltaT
          envC1.numKnots) :=
  c1_qp_result_retained envC1 rfl rfl rfl rfl rfl (Or.inl rfl)

/-- C5 counterexample: the claim says every failure return leaves the output
cleared; with an empty path and stale points in the caller's buffer,
`Process` returns a failure status while the buffer still holds its stale
point (the empty-path check returns before any `clear()`). -/
theorem c5_failure_clears_cex :
    (Process envC5cex).1 = PStatus.error "Speed Optimizer receives empty path data" ∧
    (Process envC5cex).2 = [⟨1, 2, 3, 4, 5⟩] ∧
    (Process envC5cex).2 ≠ [] := by
  refine ⟨rfl, rfl, ?_⟩
  simp [Process, envC5cex]

/-- C5 (amended): every failure return *after* the two invalid-input early
returns (null output pointer, empty path) — i.e. bounds-setup failure and QP
non-convergence — leaves the caller's `SpeedData` cleared; the invalid-input
failures return before clearing, so stale points may remain there. -/
theorem c5_failure_clears (env : ProcessEnv)
    (h1 : env.outputIsNull = false) (h2 : env.pathIsEmpty = false)
    (msg : String) (out : List SpeedPoint)
    (h : Process env = (PStatus.error msg, out)) : out = [] := by
  simp only [Process, h1, h2] at h
  rw [if_neg (by decide : ¬(false = true)), if_neg (by decide : ¬(false = true))] at h
  split_ifs at h with h3 h4 h5
  · rw [Prod.mk.injEq] at h
    exact PStatus.noConfusion h.1
  · rw [Prod.mk.injEq] at h
    exact h.2.symm
  · rw [Prod.mk.injEq] at h
    exact h.2.symm
  · rw [Prod.mk.injEq] at h
    exact PStatus.noConfusion h.1

/-- C5 witness: bounds setup failed; the buffer ends up empty. -/
theorem c5_failure_clears_witness : (Process envC5).2 = [] :=
  c5_failure_clears envC5 rfl rfl "problem setup failed" (Process envC5).2 rfl

/-- C7 counterexample: the claim says every emitted `SpeedPoint` has `v ≥ 0`,
but the emission loop never checks `velocity[0]`: with `velocity[0] = -1`
the first emitted point has `v = -1 < 0`. -/
theorem c7_emission_cex :
    (emitSpeedPoints qpArraysZero velNegAtZero qpArraysZero deltaT 3).head? =
      some ⟨0, 0, -1, 0, 0⟩ ∧
    ∃ p ∈ emitSpeedPoints qpArraysZero velNegAtZero qpArraysZero deltaT 3, p.v < 0 := by
  constructor
  · rfl
  · refine ⟨⟨0, 0, -1, 0, 0⟩, ?_, by norm_num⟩
    simp [emitSpeedPoints, emitTail, qpArraysZero, velNegAtZero, mkSpeedPoint]

/-- C7 (amended): on success the emission starts with
`(distance[0], 0, velocity[0], acceleration[0], 0)` and appends, for
`i = 1..N-1` up to the first index with `velocity[i] < 0`, the point
`(distance[i], i·Δt, velocity[i], acceleration[i],
(acceleration[i]-acceleration[i-1])/Δt)`; every emitted point has `t ≥ 0`,
and every emitted point has `v ≥ 0` *provided* `velocity[0] ≥ 0` — the loop
checks only the indices from 1 on, so the first point's velocity is emitted
unchecked. -/
theorem c7_emission_structure (d v a : ℕ → ℚ) (n : ℕ) :
    emitSpeedPoints d v a deltaT n =
      ⟨d 0, 0, v 0, a 0, 0⟩ ::
        (List.range' 1 (stopAux v 1 (n - 1) - 1)).map (mkSpeedPoint d v a deltaT) ∧
    (∀ j, 1 ≤ j → j < stopAux v 1 (n - 1) → 0 ≤ v j) ∧
    (stopAux v 1 (n - 1) < n → v (stopAux v 1 (n - 1)) < 0) ∧
    (∀ p ∈ emitSpeedPoints d v a deltaT n, 0 ≤ p.t) ∧
    (0 ≤ v 0 → ∀ p ∈ emitSpeedPoints d v a deltaT n, 0 ≤ p.v) := by
  have hstruct : emitSpeedPoints d v a deltaT n =
      ⟨d 0, 0, v 0, a 0, 0⟩ ::
        (List.range' 1 (stopAux v 1 (n - 1) - 1)).map (mkSpeedPoint d v a deltaT) := by
    rw [emitSpeedPoints, emitTail_eq]
  have hmem : ∀ p ∈ emitSpeedPoints d v a deltaT n,
      p = ⟨d 0, 0, v 0, a 0, 0⟩ ∨
      ∃ j, 1 ≤ j ∧ j < stopAux v 1 (n - 1) ∧ p = mkSpeedPoint d v a deltaT j := by
    intro p hp
    rw [hstruct, List.mem_cons] at hp
    rcases hp with hp | hp
    · exact Or.inl hp
    · rw [List.mem_map] at hp
      obtain ⟨j, hj, hpj⟩ := hp
      rw [List.mem_range'_1] at hj
      exact Or.inr ⟨j, hj.1, by omega, hpj.symm⟩
  refine ⟨hstruct, ?_, ?_, ?_, ?_⟩
  · intro j h1j hj
    exact not_lt.mp (stopAux_before v (n - 1) 1 j h1j hj)
  · intro h
    refine stopAux_at v (n - 1) 1 ?_
    have := stopAux_ge v (n - 1) 1
    omega
  · intro p hp
    rcases hmem p hp with hp0 | ⟨j, h1j, hj, hpj⟩
    · rw [hp0]
    · rw [hpj]
      show (0 : ℚ) ≤ deltaT * (j : ℚ)
      have hd : (0 : ℚ) ≤ deltaT := by norm_num [deltaT]
      exact mul_nonneg hd (Nat.cast_nonneg j)
  · intro hv0 p hp
    rcases hmem p hp with hp0 | ⟨j, h1j, hj, hpj⟩
    · rw [hp0]; exact hv0
    · rw [hpj]
      exact not_lt.mp (stopAux_before v (n - 1) 1 j h1j hj)

/-- C7 witness: instantiation of the amended emission theorem at the
all-zero arrays with three knots. -/
theorem c7_emission_structure_witness :
    emitSpeedPoints qpArraysZero qpArraysZero qpArraysZero deltaT 3 =
      ⟨qpArraysZero 0, 0, qpArraysZero 0, qpArraysZero 0, 0⟩ ::
        (List.range' 1 (stopAux qpArraysZero 1 (3 - 1) - 1)).map
          (mkSpeedPoint qpArraysZero qpArraysZero qpArraysZero deltaT) ∧
    (∀ j, 1 ≤ j → j < stopAux qpArraysZero 1 (3 - 1) → 0 ≤ qpArraysZero j) ∧
    (stopAux qpArraysZero 1 (3 - 1) < 3 → qpArraysZero (stopAux qpArraysZero 1 (3 - 1)) < 0) ∧
    (∀ p ∈ emitSpeedPoints qpArraysZero qpArraysZero qpArraysZero deltaT 3, 0 ≤ p.t) ∧
    (0 ≤ qpArraysZero 0 →
      ∀ p ∈ emitSpeedPoints qpArraysZero qpArraysZero qpArraysZero deltaT 3, 0 ≤ p.v) :=
  c7_emission_structure qpArraysZero qpArraysZero qpArraysZero 3

/-! ## Lemmas: the binary searches of DiscretizedPath -/

/-- On a range partitioned at `m` (`pred` true exactly below `m`), the
half-interval iteration returns `m`. -/
lemma bsearchAux_partition (pred : ℕ → Bool) (m : ℕ) :
    ∀ fuel first count, count ≤ fuel → first ≤ m → m ≤ first + count →
      (∀ i, first ≤ i → i < first + count → (pred i = true ↔ i < m)) →
      bsearchAux pred fuel first count = m := by
  intro fuel
  induction fuel with
  | zero =>
    intro first count hcf h1 h2 _
    simp only [bsearchAux]
    omega
  | succ fuel ih =>
    intro first count hcf h1 h2 hspec
    simp only [bsearchAux]
    split_ifs with hc0 hp
    · omega
    · have hstep : count / 2 < count := Nat.div_lt_self (Nat.pos_of_ne_zero hc0) one_lt_two
      have hlt : first + count / 2 < m := (hspec _ (by omega) (by omega)).mp hp
      exact ih (first + count / 2 + 1) (count - count / 2 - 1) (by omega) (by omega)
        (by omega) (fun i hi1 hi2 => hspec i (by omega) (by omega))
    · have hstep : count / 2 < count := Nat.div_lt_self (Nat.pos_of_ne_zero hc0) one_lt_two
      have hge : ¬ first + count / 2 < m := fun hlt =>
        hp ((hspec _ (by omega) (by omega)).mpr hlt)
      exact ih first (count / 2) (by omega) h1 (by omega)
        (fun i hi1 hi2 => hspec i (by omega) (by omega))

lemma lbLinear_le (q : ℚ) : ∀ pts : List PathPoint, lbLinear q pts ≤ pts.length := by
  intro pts
  induction pts with
  | nil => exact Nat.le_refl 0
  | cons p rest ih =>
    simp only [lbLinear, List.length_cons]
    split_ifs
    · omega
    · omega

lemma lbLinear_spec (q : ℚ) :
    ∀ pts : List PathPoint, pts.Pairwise (fun a b => a.s ≤ b.s) →
      ∀ i, i < pts.length → (sAt pts i < q ↔ i < lbLinear q pts) := by
  intro pts
  induction pts with
  | nil => intro _ i hi; simp at hi
  | cons p rest ih =>
    intro hp i hi
    rw [List.pairwise_cons] at hp
    obtain ⟨hhead, hrest⟩ := hp
    simp only [lbLinear]
    split_ifs with hps
    · cases i with
      | zero =>
        exact iff_of_true hps (Nat.succ_pos _)
      | succ i =>
        have hi' : i < rest.length := by simpa using hi
        have hstep : sAt (p :: rest) (i+1) = sAt rest i := rfl
        rw [hstep, ih hrest i hi']
        exact (Nat.succ_lt_succ_iff).symm
    · cases i with
      | zero =>
        exact iff_of_false hps (lt_irrefl 0)
      | succ i =>
        have hi' : i < rest.length := by simpa using hi
        have hmem : rest.getD i defaultPathPoint ∈ rest := by
          rw [List.getD_eq_getElem rest defaultPathPoint hi']
          exact List.getElem_mem hi'
        have hle : p.s ≤ (rest.getD i defaultPathPoint).s := hhead _ hmem
        exact iff_of_false (by simp only [sAt, pathPointAt, List.getD_cons_succ]; linarith [not_lt.mp hps]) (by omega)

lemma queryLowerBound_eq (pts : List PathPoint) (q : ℚ)
    (hs : pts.Pairwise (fun a b => a.s ≤ b.s)) :
    QueryLowerBound pts q = lbLinear q pts := by
  refine bsearchAux_partition _ (lbLinear q pts) pts.length 0 pts.length le_rfl
    (Nat.zero_le _) (by simpa using lbLinear_le q pts) ?_
  intro i h0 hi
  simp only [decide_eq_true_eq]
  exact lbLinear_spec q pts hs i (by simpa using hi)

lemma sAt_mono (pts : List PathPoint) (hs : pts.Pairwise (fun a b => a.s ≤ b.s))
    (i j : ℕ) (hij : i ≤ j) (hj : j < pts.length) : sAt pts i ≤ sAt pts j := by
  rcases Nat.eq_or_lt_of_le hij with h | h
  · subst h; exact le_rfl
  · have hi : i < pts.length := lt_trans h hj
    have hR := List.pairwise_iff_get.mp hs ⟨i, hi⟩ ⟨j, hj⟩ h
    simp only [sAt, pathPointAt]
    rw [List.getD_eq_getElem pts defaultPathPoint hi,
        List.getD_eq_getElem pts defaultPathPoint hj]
    simpa using hR

lemma headD_eq_at_zero (pts : List PathPoint) :
    pts.headD defaultPathPoint = pathPointAt pts 0 := by
  cases pts <;> rfl

lemma getLastD_eq_at_pred : ∀ (pts : List PathPoint) (d : PathPoint),
    pts.getLastD d = pts.getD (pts.length - 1) d
  | [], _ => rfl
  | p :: rest, d => by
    rw [List.getLastD_cons]
    cases rest with
    | nil => rfl
    | cons r rs =>
      rw [getLastD_eq_at_pred (r :: rs) p]
      rw [List.getD_eq_getElem (r :: rs) p (by simp), List.getD_eq_getElem _ d (by simp)]
      simp [List.getElem_cons_succ]

/-! ## Theorems: claims C9, C10 -/

/-- C9: for a non-empty path with non-decreasing stations, `Evaluate` clamps
rather than extrapolates: it returns `front()` when `path_s ≤ front().s()`,
`back()` when `path_s > back().s()`, and otherwise linearly interpolates
between the two neighbouring points whose stations bracket `path_s`. -/
theorem c9_evaluate_clamps (pts : List PathPoint) (q : ℚ) (hne : pts ≠ [])
    (hs : pts.Pairwise (fun a b => a.s ≤ b.s)) :
    (q ≤ (pts.headD defaultPathPoint).s → Evaluate pts q = pts.headD defaultPathPoint) ∧
    ((pts.getLastD defaultPathPoint).s < q →
      Evaluate pts q = pts.getLastD defaultPathPoint) ∧
    ((pts.headD defaultPathPoint).s < q → q ≤ (pts.getLastD defaultPathPoint).s →
      ∃ k, 0 < k ∧ k < pts.length ∧ sAt pts (k-1) < q ∧ q ≤ sAt pts k ∧
        Evaluate pts q = InterpolateUsingLinearApproximation
          (pathPointAt pts (k-1)) (pathPointAt pts k) q) := by
  have hlen : 0 < pts.length := List.length_pos.mpr hne
  have hlb : QueryLowerBound pts q = lbLinear q pts := queryLowerBound_eq pts q hs
  have hmle : lbLinear q pts ≤ pts.length := lbLinear_le q pts
  have hspec := lbLinear_spec q pts hs
  have hhead : (pts.headD defaultPathPoint).s = sAt pts 0 := by
    rw [headD_eq_at_zero]; rfl
  have hlast : (pts.getLastD defaultPathPoint).s = sAt pts (pts.length - 1) := by
    rw [getLastD_eq_at_pred]; rfl
  refine ⟨?_, ?_, ?_⟩
  · intro hq
    have h0 : ¬ sAt pts 0 < q := by rw [← hhead]; exact not_lt.mpr hq
    have hm0 : lbLinear q pts = 0 := by
      by_contra hm
      exact h0 ((hspec 0 hlen).mpr (by omega))
    simp [Evaluate, hlb, hm0]
  · intro hq
    have hmlen : lbLinear q pts = pts.length := by
      by_contra hm
      have hlt : lbLinear q pts < pts.length := by omega
      have : ¬ sAt pts (lbLinear q pts) < q := fun hc =>
        absurd ((hspec _ hlt).mp hc) (lt_irrefl _)
      have hle2 : sAt pts (lbLinear q pts) ≤ sAt pts (pts.length - 1) :=
        sAt_mono pts hs _ _ (by omega) (by omega)
      rw [← hlast] at hle2
      exact this (lt_of_le_of_lt hle2 hq)
    simp only [Evaluate, hlb, hmlen]
    rw [if_neg (show ¬ pts.length = 0 by omega)]
    simp
  · intro hq1 hq2
    have hm1 : 0 < lbLinear q pts := by
      refine (hspec 0 hlen).mp ?_
      rw [← hhead]; exact hq1
    have hmlt : lbLinear q pts < pts.length := by
      rcases Nat.eq_or_lt_of_le hmle with h | h
      · exfalso
        have hl : pts.length - 1 < lbLinear q pts := by omega
        have : sAt pts (pts.length - 1) < q :=
          (hspec (pts.length - 1) (by omega)).mpr hl
        rw [← hlast] at this
        linarith
      · exact h
    refine ⟨lbLinear q pts, hm1, hmlt, ?_, ?_, ?_⟩
    · exact (hspec (lbLinear q pts - 1) (by omega)).mpr (by omega)
    · exact not_lt.mp (fun hc => absurd ((hspec _ hmlt).mp hc) (lt_irrefl _))
    · simp only [Evaluate, hlb]
      rw [if_neg (show ¬ lbLinear q pts = 0 by omega)]
      rw [if_neg (show ¬ lbLinear q pts = pts.length by omega)]

/-- C9 witness: instantiation on the two-point path `[(s=0), (s=1)]` at the
interior query `1/2`. -/
theorem c9_evaluate_clamps_witness :
    ((1:ℚ)/2 ≤ (ptsTwo.headD defaultPathPoint).s →
      Evaluate ptsTwo (1/2) = ptsTwo.headD defaultPathPoint) ∧
    ((ptsTwo.getLastD defaultPathPoint).s < 1/2 →
      Evaluate ptsTwo (1/2) = ptsTwo.getLastD defaultPathPoint) ∧
    ((ptsTwo.headD defaultPathPoint).s < 1/2 → (1:ℚ)/2 ≤ (ptsTwo.getLastD defaultPathPoint).s →
      ∃ k, 0 < k ∧ k < ptsTwo.length ∧ sAt ptsTwo (k-1) < 1/2 ∧ (1:ℚ)/2 ≤ sAt ptsTwo k ∧
        Evaluate ptsTwo (1/2) = InterpolateUsingLinearApproximation
          (pathPointAt ptsTwo (k-1)) (pathPointAt ptsTwo k) (1/2)) :=
  c9_evaluate_clamps ptsTwo (1/2) (by simp [ptsTwo]) (by decide)

/-- C10 counterexample: on the strictly increasing two-point path
`[(s=0), (s=1)]`, `Evaluate` and `EvaluateReverse` disagree at the query
`-1`: the lower-bound lookup clamps to `front()` but the upper-bound lookup
(whose comparator is oriented for descending-station paths) lands at
`end()` and returns `back()`. -/
theorem c10_lookups_disagree_cex :
    List.Pairwise (fun a b : PathPoint => a.s < b.s) ptsTwo ∧
    EvaluateReverse ptsTwo (-1) ≠ Evaluate ptsTwo (-1) := by
  constructor
  · decide
  · decide

/-- C10 (amended): the two lookups coincide on every single-point path (for
paths of two or more strictly increasing stations they differ, as
`c10_lookups_disagree_cex` shows: `EvaluateReverse`'s `std::upper_bound`
comparator is oriented for descending-station paths). -/
theorem c10_singleton_agree (p : PathPoint) (q : ℚ) :
    EvaluateReverse [p] q = Evaluate [p] q := by
  by_cases h : p.s < q
  · simp [EvaluateReverse, Evaluate, QueryUpperBound, QueryLowerBound, bsearch,
      bsearchAux, sAt, pathPointAt, h]
  · simp [EvaluateReverse, Evaluate, QueryUpperBound, QueryLowerBound, bsearch,
      bsearchAux, sAt, pathPointAt, h]

end Apollo
